import Mathlib

/-
Verification of the statistics core of the SigQA/QA repository
(src/anova.jsx): the two-sample Welch-style significance test
(`calculateStats` with its helpers `calculateMean`, `calculateVariance`),
the five-number quartile summary (`getQuartiles`), and the CSV record
extractor (`parseCSV` with `parseVal` / `addData`).

Modelling conventions, fixed once for the whole development:

* JavaScript numbers are modelled by `JSNum α`: either a finite value of
  the carrier `α`, or one of the special values `NaN`, `+Infinity`,
  `-Infinity`.  Finite arithmetic is exact (IEEE-754 rounding, overflow
  to infinity and the sign of zero are not modelled; no divisor computed
  by this code can be a negative zero, so collapsing `-0` into `0` is
  harmless).  The special values follow the ECMAScript semantics of the
  operations the source actually uses: `+`, `*`, `/`, `Math.abs`,
  `Math.sqrt`, `Math.pow`.
* The statistics engine works on samples of finite reals (`List ℝ`),
  matching the spec's data model; special values can still arise inside
  the computation (division by a zero standard error) and are tracked by
  `JSNum ℝ`.
* The quartile summary only uses field and order operations, so it is
  defined over any linear ordered field with a floor; theorems are proved
  generically (covering `ℝ`) and witnesses are evaluated at `ℚ`.
* The record extractor works on JavaScript strings modelled as
  `List Char`; `parseFloat` follows the ECMAScript longest-valid-prefix
  grammar (whitespace skip, optional sign, `Infinity` literal, decimal
  digits with optional fraction and exponent), producing exact rationals
  for finite literals.
-/

namespace QA

/-- A JavaScript number over carrier `α`: `NaN`, `+Infinity`, `-Infinity`
or a finite value. -/
inductive JSNum (α : Type) where
  | nan : JSNum α
  | inf : JSNum α
  | ninf : JSNum α
  | fin : α → JSNum α
  deriving DecidableEq

namespace JSNum

variable {α : Type} [LinearOrderedField α]

/-- JavaScript `+` on numbers (ECMAScript addition of special values). -/
def jadd : JSNum α → JSNum α → JSNum α
  | nan, _ => nan
  | _, nan => nan
  | inf, ninf => nan
  | ninf, inf => nan
  | inf, _ => inf
  | _, inf => inf
  | ninf, _ => ninf
  | _, ninf => ninf
  | fin a, fin b => fin (a + b)

/-- JavaScript unary `-` on numbers. -/
def jneg : JSNum α → JSNum α
  | nan => nan
  | inf => ninf
  | ninf => inf
  | fin a => fin (-a)

/-- JavaScript `Math.abs`. -/
def jabs : JSNum α → JSNum α
  | nan => nan
  | inf => inf
  | ninf => inf
  | fin a => fin |a|

/-- JavaScript `*` on numbers (ECMAScript multiplication of special
values; an infinity times zero is `NaN`). -/
def jmul : JSNum α → JSNum α → JSNum α
  | nan, _ => nan
  | _, nan => nan
  | inf, inf => inf
  | inf, ninf => ninf
  | ninf, inf => ninf
  | ninf, ninf => inf
  | inf, fin b => if b = 0 then nan else if 0 < b then inf else ninf
  | fin a, inf => if a = 0 then nan else if 0 < a then inf else ninf
  | ninf, fin b => if b = 0 then nan else if 0 < b then ninf else inf
  | fin a, ninf => if a = 0 then nan else if 0 < a then ninf else inf
  | fin a, fin b => fin (a * b)

/-- JavaScript `/` on numbers: `0/0` and `inf/inf` are `NaN`, a nonzero
finite value divided by zero is a signed infinity, a finite value divided
by an infinity is zero.  (The sign of a zero divisor is collapsed to `+0`;
no divisor computed by the modelled code can be `-0`.) -/
def jdiv : JSNum α → JSNum α → JSNum α
  | nan, _ => nan
  | _, nan => nan
  | inf, inf => nan
  | inf, ninf => nan
  | ninf, inf => nan
  | ninf, ninf => nan
  | inf, fin b => if b < 0 then ninf else inf
  | ninf, fin b => if b < 0 then inf else ninf
  | fin _, inf => fin 0
  | fin _, ninf => fin 0
  | fin a, fin b =>
    if b = 0 then (if a = 0 then nan else if 0 < a then inf else ninf)
    else fin (a / b)

/-- JavaScript `Math.sqrt`: `NaN` on negative inputs and on `NaN`. -/
noncomputable def jsqrt : JSNum ℝ → JSNum ℝ
  | nan => nan
  | inf => inf
  | ninf => nan
  | fin a => if a < 0 then nan else fin (Real.sqrt a)

open Classical in
/-- JavaScript `Math.pow` (ECMAScript `Number::exponentiate`): a `NaN`
exponent gives `NaN`, a zero exponent gives `1`, a negative finite base
with a non-integer finite exponent gives `NaN`; otherwise the real power
(`Real.rpow`, which agrees with the ECMAScript value on every remaining
case, including negative bases with integer exponents). -/
noncomputable def jpow : JSNum ℝ → JSNum ℝ → JSNum ℝ
  | _, nan => nan
  | b, inf =>
    match b with
    | nan => nan
    | inf => inf
    | ninf => inf
    | fin a => if a = 1 ∨ a = -1 then nan else if 1 < |a| then inf else fin 0
  | b, ninf =>
    match b with
    | nan => nan
    | inf => fin 0
    | ninf => fin 0
    | fin a => if a = 1 ∨ a = -1 then nan else if 1 < |a| then fin 0 else inf
  | b, fin e =>
    if e = 0 then fin 1
    else
      match b with
      | nan => nan
      | inf => if 0 < e then inf else fin 0
      | ninf =>
        if 0 < e then (if ∃ k : ℤ, (k : ℝ) = e ∧ Odd k then ninf else inf)
        else fin 0
      | fin a =>
        if a = 0 then (if 0 < e then fin 0 else inf)
        else if a < 0 ∧ ¬ ∃ k : ℤ, (k : ℝ) = e then nan
        else fin (a ^ e)

end JSNum

open JSNum

/-- `const calculateMean = (arr) => arr.reduce((a, b) => a + b, 0) / arr.length;`
(finite inputs with `arr.length ≥ 1` never produce special values; the
engine only calls it on samples of length at least 2). -/
noncomputable def calculateMean (arr : List ℝ) : ℝ :=
  arr.sum / (arr.length : ℝ)

/-- `const calculateVariance = (arr, mean) => arr.reduce((a, b) => a + Math.pow(b - mean, 2), 0) / (arr.length - 1);` -/
noncomputable def calculateVariance (arr : List ℝ) (mean : ℝ) : ℝ :=
  (arr.map (fun b => (b - mean) ^ 2)).sum / ((arr.length : ℝ) - 1)

/-- The variance the engine computes for one group:
`calculateVariance(group, calculateMean(group))` (the `v1` / `v2` of
`calculateStats`). -/
noncomputable def varOf (g : List ℝ) : ℝ :=
  calculateVariance g (calculateMean g)

/-- The squared standard error `(v1 / n1) + (v2 / n2)` of
`calculateStats`; `se = Math.sqrt((v1 / n1) + (v2 / n2))`. -/
noncomputable def seSquared (g1 g2 : List ℝ) : ℝ :=
  varOf g1 / (g1.length : ℝ) + varOf g2 / (g2.length : ℝ)

/-- `const t = Math.abs((m1 - m2) / se);` of `calculateStats`. -/
noncomputable def tStat (g1 g2 : List ℝ) : JSNum ℝ :=
  jabs (jdiv (fin (calculateMean g1 - calculateMean g2))
             (jsqrt (fin (seSquared g1 g2))))

/-- The denominator of the Welch-Satterthwaite expression of
`calculateStats`:
`(Math.pow(v1 / n1, 2) / (n1 - 1)) + (Math.pow(v2 / n2, 2) / (n2 - 1))`. -/
noncomputable def dfDen (g1 g2 : List ℝ) : ℝ :=
  (varOf g1 / (g1.length : ℝ)) ^ 2 / ((g1.length : ℝ) - 1)
    + (varOf g2 / (g2.length : ℝ)) ^ 2 / ((g2.length : ℝ) - 1)

/-- `const df = Math.pow((v1 / n1) + (v2 / n2), 2) / (...)` of
`calculateStats` (Welch-Satterthwaite degrees of freedom).  It is a local
constant of the source function: it is NOT part of the returned object. -/
noncomputable def welchDf (g1 g2 : List ℝ) : JSNum ℝ :=
  jdiv (fin ((seSquared g1 g2) ^ 2)) (fin (dfDen g1 g2))

/-- `const p = (1 / Math.pow(1 + (t * t) / df, (df + 1) / 2));` of
`calculateStats`. -/
noncomputable def pValue (g1 g2 : List ℝ) : JSNum ℝ :=
  jdiv (fin 1)
    (jpow (jadd (fin 1) (jdiv (jmul (tStat g1 g2) (tStat g1 g2)) (welchDf g1 g2)))
          (jdiv (jadd (welchDf g1 g2) (fin 1)) (fin 2)))

/-- The p-value formula as the claim states it:
`p = (1 + t^2 / df) ^ (-(df + 1) / 2)` — a power with negated exponent
rather than the reciprocal of a power.  (Spec-side definition, to be
compared with the source-side `pValue`.) -/
noncomputable def pValueSpec (g1 g2 : List ℝ) : JSNum ℝ :=
  jpow (jadd (fin 1) (jdiv (jmul (tStat g1 g2) (tStat g1 g2)) (welchDf g1 g2)))
       (jneg (jdiv (jadd (welchDf g1 g2) (fin 1)) (fin 2)))

/-- The object literal returned by `calculateStats`.  The guarded branch
returns `{ p: 1, t: 0 }`, so the `m1` / `m2` properties may be absent
(`undefined`), modelled by `Option`.  There is no `df` property. -/
structure StatsResult where
  t : JSNum ℝ
  p : JSNum ℝ
  m1 : Option ℝ
  m2 : Option ℝ

/-- `const calculateStats = (group1, group2) => ...` of src/anova.jsx:
Welch's two-sample test with the closed-form tail approximation for the
p-value.  Returns `{ p: 1, t: 0 }` when either sample has fewer than two
elements, and `{ t, p, m1, m2 }` otherwise. -/
noncomputable def calculateStats (group1 group2 : List ℝ) : StatsResult :=
  if group1.length < 2 ∨ group2.length < 2 then
    { t := fin 0, p := fin 1, m1 := none, m2 := none }
  else
    { t := tStat group1 group2, p := pValue group1 group2,
      m1 := some (calculateMean group1), m2 := some (calculateMean group2) }

/-- The five-number summary object returned by `getQuartiles`. -/
structure Quartiles (α : Type) where
  min : α
  q1 : α
  median : α
  q3 : α
  max : α
  deriving DecidableEq

variable {α : Type} [LinearOrderedField α] [FloorRing α]

/-- `const sorted = [...data].sort((a, b) => a - b);` — the spread `[...]`
copies the array and `.sort` sorts that copy in place (ascending numeric
order), leaving `data` itself untouched.  On a list of values the result
is the unique ascending rearrangement. -/
def sortedCopy (data : List α) : List α :=
  List.insertionSort (· ≤ ·) data

/-- The `getValue` closure of `getQuartiles`: linear interpolation at the
0-indexed fractional rank `pos`, with fallback to `sorted[base]` when
`sorted[base + 1]` is `undefined`.  (For the positions `getQuartiles`
uses, `base` is always in range.) -/
def getValue (sorted : List α) (pos : α) : α :=
  let base := (⌊pos⌋).toNat
  let rest := pos - (base : α)
  match sorted.get? (base + 1) with
  | some nxt => sorted.getD base 0 + rest * (nxt - sorted.getD base 0)
  | none => sorted.getD base 0

/-- `const getQuartiles = (data) => ...` of src/anova.jsx: all-zero
summary on an empty (or missing) sample, otherwise min, linearly
interpolated quartiles at positions `(n - 1) * q` for
`q ∈ {0.25, 0.5, 0.75}`, and max of the sorted copy. -/
def getQuartiles (data : List α) : Quartiles α :=
  if data.length = 0 then ⟨0, 0, 0, 0, 0⟩
  else
    let sorted := sortedCopy data
    let q1Pos := ((sorted.length : α) - 1) * (1 / 4)
    let q3Pos := ((sorted.length : α) - 1) * (3 / 4)
    let medianPos := ((sorted.length : α) - 1) * (1 / 2)
    { min := sorted.getD 0 0,
      q1 := getValue sorted q1Pos,
      median := getValue sorted medianPos,
      q3 := getValue sorted q3Pos,
      max := sorted.getD (sorted.length - 1) 0 }

/-- State-passing embedding of a call `getQuartiles(data)`: the result
together with the caller's array after the call returns.  The only
mutation in the body is the in-place `.sort` applied to the spread copy
`[...data]`, so the caller's array is returned unchanged (had the source
sorted `data` itself, the second component would be the sorted list). -/
def getQuartilesCall (data : List α) : Quartiles α × List α :=
  (getQuartiles data, data)

/-! ### Record extractor (`parseCSV`)

JavaScript strings are modelled as `List Char`. -/

/-- The leading-whitespace characters `parseFloat` skips (the common
ECMAScript `StrWhiteSpace` characters appearing in CSV text). -/
def jsWhitespace (c : Char) : Bool :=
  c == ' ' || c == '\t' || c == '\n' || c == '\r'

/-- Longest leading run of decimal digits, and the rest. -/
def takeDigits : List Char → List Char × List Char
  | [] => ([], [])
  | c :: rest =>
    if c.isDigit then
      let p := takeDigits rest
      (c :: p.1, p.2)
    else ([], c :: rest)

/-- Value of a string of decimal digits. -/
def digitsToNat (ds : List Char) : ℕ :=
  ds.foldl (fun acc c => 10 * acc + (c.toNat - 48)) 0

/-- Value of an ECMAScript `ExponentPart` suffix candidate (without the
leading `e` / `E`): an optional sign followed by digits; an exponent with
no digits is not part of the parsed literal prefix, so it contributes 0. -/
def expDigits : List Char → ℤ
  | '-' :: r =>
    let p := takeDigits r
    if p.1.isEmpty then 0 else -(digitsToNat p.1 : ℤ)
  | '+' :: r =>
    let p := takeDigits r
    if p.1.isEmpty then 0 else (digitsToNat p.1 : ℤ)
  | r =>
    let p := takeDigits r
    if p.1.isEmpty then 0 else (digitsToNat p.1 : ℤ)

/-- Exponent of the parsed literal prefix: present only when the text
after the digits starts with `e` or `E` followed by a signed digit run. -/
def expOf : List Char → ℤ
  | [] => 0
  | c :: r => if c == 'e' || c == 'E' then expDigits r else 0

/-- ECMAScript `parseFloat`: skip leading whitespace, then parse the
longest prefix that is a valid signed decimal literal — the literal
`Infinity`, or digits with optional fraction and exponent — yielding
`NaN` when no prefix parses.  Finite values are represented exactly as
rationals (IEEE-754 rounding of the decimal value is not modelled). -/
def parseFloat (s : List Char) : JSNum ℚ :=
  let s1 := s.dropWhile jsWhitespace
  let signed : Bool × List Char :=
    match s1 with
    | '-' :: r => (true, r)
    | '+' :: r => (false, r)
    | _ => (false, s1)
  let neg := signed.1
  let s2 := signed.2
  if s2.take 8 = ("Infinity").toList then
    (if neg then JSNum.ninf else JSNum.inf)
  else
    let ip := takeDigits s2
    let fp : List Char × List Char :=
      match ip.2 with
      | '.' :: r => takeDigits r
      | _ => ([], ip.2)
    if ip.1.isEmpty && fp.1.isEmpty then JSNum.nan
    else
      let mag : ℚ := (digitsToNat ip.1 : ℚ) + (digitsToNat fp.1 : ℚ) / 10 ^ fp.1.length
      let ex : ℤ := expOf fp.2
      JSNum.fin ((if neg then -mag else mag) * 10 ^ ex)

/-- `const parseVal = (val) => { const num = parseFloat(val); return isNaN(num) ? null : num; }`
of `parseCSV`: an unparseable field yields `null` (`none`); note that
`isNaN` does NOT reject the infinities. -/
def parseVal (val : List Char) : Option (JSNum ℚ) :=
  match parseFloat val with
  | JSNum.nan => none
  | num => some num

/-- `parseVal(row[idx])`: reading past the end of the row gives
`undefined`, and `parseFloat(undefined)` is `NaN`, hence `null`. -/
def fieldAt (row : List (List Char)) (idx : ℕ) : Option (JSNum ℚ) :=
  match row.get? idx with
  | none => none
  | some v => parseVal v

/-- One metric's accumulator `{ group1: [], group2: [], unit: ... }`. -/
structure MetricData where
  group1 : List (JSNum ℚ)
  group2 : List (JSNum ℚ)
  unit : List Char
  deriving DecidableEq

/-- `const addData = (metric, idx1, idx2) => { ... }` of `parseCSV`: the
two columns are parsed independently and each successfully parsed value
is pushed onto its group. -/
def addData (md : MetricData) (row : List (List Char)) (idx1 idx2 : ℕ) : MetricData :=
  { md with
    group1 := md.group1 ++ (fieldAt row idx1).toList,
    group2 := md.group2 ++ (fieldAt row idx2).toList }

/-- The five fixed metrics of the `parsed` object of `parseCSV`. -/
structure ParsedData where
  ballSize : MetricData
  ballThickness : MetricData
  loopHeight : MetricData
  edgeHeight : MetricData
  bpt : MetricData
  deriving DecidableEq

/-- The initial `parsed` object: five metrics with empty groups. -/
def initialData : ParsedData :=
  { ballSize := ⟨[], [], ("um").toList⟩,
    ballThickness := ⟨[], [], ("um").toList⟩,
    loopHeight := ⟨[], [], ("um").toList⟩,
    edgeHeight := ⟨[], [], ("um").toList⟩,
    bpt := ⟨[], [], ("g").toList⟩ }

/-- JavaScript `String.prototype.split` with a single-character
separator: splits into (possibly empty) fields, one more field than
separators. -/
def splitChar (sep : Char) : List Char → List (List Char)
  | [] => [[]]
  | c :: rest =>
    if c = sep then [] :: splitChar sep rest
    else
      match splitChar sep rest with
      | [] => [[c]]
      | g :: gs => (c :: g) :: gs

/-- The body of the row loop of `parseCSV`: split the line on commas,
skip it entirely when it has fewer than 10 fields, otherwise accumulate
the five metrics from their fixed column positions. -/
def processLine (pd : ParsedData) (line : List Char) : ParsedData :=
  let row := splitChar ',' line
  if row.length < 10 then pd
  else
    { ballSize := addData pd.ballSize row 1 2,
      ballThickness := addData pd.ballThickness row 3 4,
      loopHeight := addData pd.loopHeight row 5 6,
      edgeHeight := addData pd.edgeHeight row 7 8,
      bpt := addData pd.bpt row 10 11 }

/-- `const parseCSV = (csvText) => ...` of src/anova.jsx: split into
lines, skip the first five (preamble), process each remaining row. -/
def parseCSV (csvText : List Char) : ParsedData :=
  ((splitChar '\n' csvText).drop 5).foldl processLine initialData

/-- All values the extractor accumulated, across the five metrics and
both groups. -/
def allValues (pd : ParsedData) : List (JSNum ℚ) :=
  pd.ballSize.group1 ++ pd.ballSize.group2 ++
  pd.ballThickness.group1 ++ pd.ballThickness.group2 ++
  pd.loopHeight.group1 ++ pd.loopHeight.group2 ++
  pd.edgeHeight.group1 ++ pd.edgeHeight.group2 ++
  pd.bpt.group1 ++ pd.bpt.group2

/-- Whether a JavaScript number is finite (neither `NaN` nor an
infinity). -/
def JSNum.isFinite {β : Type} : JSNum β → Bool
  | JSNum.fin _ => true
  | _ => false

/-- A CSV text whose single data row carries the literal `Infinity` in
column 1 (the Ball Size group-A column): five preamble lines, then a row
with 12 fields. -/
def infinityText : List Char :=
  ("\n\n\n\n\n,Infinity,1,1,1,1,1,1,1,1,1,1").toList

/-- The per-row accumulation shape the claim describes: each of the ten
columns is parsed independently and appends its (optional) value to its
own sample, leaving units untouched.  (Spec-side definition, to be
compared with the source-side `processLine`.) -/
def rowUpdate (pd : ParsedData) (row : List (List Char)) : ParsedData :=
  { ballSize :=
      { group1 := pd.ballSize.group1 ++ (fieldAt row 1).toList,
        group2 := pd.ballSize.group2 ++ (fieldAt row 2).toList,
        unit := pd.ballSize.unit },
    ballThickness :=
      { group1 := pd.ballThickness.group1 ++ (fieldAt row 3).toList,
        group2 := pd.ballThickness.group2 ++ (fieldAt row 4).toList,
        unit := pd.ballThickness.unit },
    loopHeight :=
      { group1 := pd.loopHeight.group1 ++ (fieldAt row 5).toList,
        group2 := pd.loopHeight.group2 ++ (fieldAt row 6).toList,
        unit := pd.loopHeight.unit },
    edgeHeight :=
      { group1 := pd.edgeHeight.group1 ++ (fieldAt row 7).toList,
        group2 := pd.edgeHeight.group2 ++ (fieldAt row 8).toList,
        unit := pd.edgeHeight.unit },
    bpt :=
      { group1 := pd.bpt.group1 ++ (fieldAt row 10).toList,
        group2 := pd.bpt.group2 ++ (fieldAt row 11).toList,
        unit := pd.bpt.unit } }

/-- Invariant: neither group of a metric contains `NaN`. -/
def MOk (md : MetricData) : Prop :=
  JSNum.nan ∉ md.group1 ∧ JSNum.nan ∉ md.group2

/-- Invariant: no accumulated sample contains `NaN`. -/
def POk (pd : ParsedData) : Prop :=
  MOk pd.ballSize ∧ MOk pd.ballThickness ∧ MOk pd.loopHeight ∧
    MOk pd.edgeHeight ∧ MOk pd.bpt

/-! ### Basic facts about the JavaScript operations -/

namespace JSNum

variable {α : Type} [LinearOrderedField α]

@[simp] theorem jadd_fin_fin (a b : α) : jadd (fin a) (fin b) = fin (a + b) := rfl

@[simp] theorem jadd_nan_left (x : JSNum α) : jadd nan x = nan := by cases x <;> rfl

@[simp] theorem jadd_nan_right (x : JSNum α) : jadd x nan = nan := by cases x <;> rfl

@[simp] theorem jneg_fin (a : α) : jneg (fin a) = fin (-a) := rfl

@[simp] theorem jneg_nan : jneg (nan : JSNum α) = nan := rfl

@[simp] theorem jabs_fin (a : α) : jabs (fin a) = fin |a| := rfl

@[simp] theorem jabs_nan : jabs (nan : JSNum α) = nan := rfl

@[simp] theorem jabs_inf : jabs (inf : JSNum α) = inf := rfl

@[simp] theorem jabs_ninf : jabs (ninf : JSNum α) = inf := rfl

@[simp] theorem jmul_fin_fin (a b : α) : jmul (fin a) (fin b) = fin (a * b) := rfl

@[simp] theorem jmul_nan_left (x : JSNum α) : jmul nan x = nan := by cases x <;> rfl

@[simp] theorem jmul_nan_right (x : JSNum α) : jmul x nan = nan := by cases x <;> rfl

@[simp] theorem jdiv_nan_left (x : JSNum α) : jdiv nan x = nan := by cases x <;> rfl

@[simp] theorem jdiv_nan_right (x : JSNum α) : jdiv x nan = nan := by cases x <;> rfl

theorem jdiv_fin_fin (a : α) {b : α} (hb : b ≠ 0) :
    jdiv (fin a) (fin b) = fin (a / b) := by
  simp [jdiv, hb]

theorem jdiv_zero_zero : jdiv (fin (0 : α)) (fin 0) = nan := by
  simp [jdiv]

theorem jdiv_fin_zero_pos {a : α} (ha : 0 < a) : jdiv (fin a) (fin 0) = inf := by
  simp [jdiv, ha, ha.ne']

theorem jdiv_fin_zero_neg {a : α} (ha : a < 0) : jdiv (fin a) (fin 0) = ninf := by
  simp [jdiv, ha.ne, not_lt.mpr ha.le]

@[simp] theorem jsqrt_nan : jsqrt nan = nan := rfl

theorem jsqrt_fin_of_nonneg {a : ℝ} (ha : 0 ≤ a) :
    jsqrt (fin a) = fin (Real.sqrt a) := by
  simp [jsqrt, not_lt.mpr ha]

@[simp] theorem jpow_exp_nan (b : JSNum ℝ) : jpow b nan = nan := by cases b <;> rfl

theorem jpow_fin_fin_of_pos {a e : ℝ} (ha : 0 < a) (he : e ≠ 0) :
    jpow (fin a) (fin e) = fin (a ^ e) := by
  simp [jpow, he, ha.ne', not_lt.mpr ha.le]

end JSNum

/-! ### Helper lemmas about the statistics engine -/

theorem varOf_nonneg (g : List ℝ) : 0 ≤ varOf g := by
  unfold varOf calculateVariance
  rcases Nat.eq_zero_or_pos g.length with h | h
  · rw [List.length_eq_zero] at h
    subst h
    simp
  · apply div_nonneg
    · apply List.sum_nonneg
      intro x hx
      simp only [List.mem_map] at hx
      obtain ⟨b, _, rfl⟩ := hx
      positivity
    · have h1 : (1 : ℝ) ≤ (g.length : ℝ) := by exact_mod_cast h
      linarith

theorem seSquared_nonneg (g1 g2 : List ℝ) : 0 ≤ seSquared g1 g2 :=
  add_nonneg (div_nonneg (varOf_nonneg g1) (Nat.cast_nonneg _))
             (div_nonneg (varOf_nonneg g2) (Nat.cast_nonneg _))

theorem seSquared_eq_zero_parts {g1 g2 : List ℝ} (h : seSquared g1 g2 = 0) :
    varOf g1 / (g1.length : ℝ) = 0 ∧ varOf g2 / (g2.length : ℝ) = 0 := by
  have h1 := div_nonneg (varOf_nonneg g1) (Nat.cast_nonneg g1.length)
  have h2 := div_nonneg (varOf_nonneg g2) (Nat.cast_nonneg g2.length)
  unfold seSquared at h
  constructor <;> linarith

theorem dfDen_eq_zero {g1 g2 : List ℝ} (h : seSquared g1 g2 = 0) :
    dfDen g1 g2 = 0 := by
  obtain ⟨h1, h2⟩ := seSquared_eq_zero_parts h
  unfold dfDen
  rw [h1, h2]
  simp

theorem dfDen_pos {g1 g2 : List ℝ} (h1 : 2 ≤ g1.length) (h2 : 2 ≤ g2.length)
    (hse : 0 < seSquared g1 g2) : 0 < dfDen g1 g2 := by
  have hn1 : (0 : ℝ) < (g1.length : ℝ) - 1 := by
    have h : (2 : ℝ) ≤ (g1.length : ℝ) := by exact_mod_cast h1
    linarith
  have hn2 : (0 : ℝ) < (g2.length : ℝ) - 1 := by
    have h : (2 : ℝ) ≤ (g2.length : ℝ) := by exact_mod_cast h2
    linarith
  have ha := div_nonneg (varOf_nonneg g1) (Nat.cast_nonneg g1.length)
  have hb := div_nonneg (varOf_nonneg g2) (Nat.cast_nonneg g2.length)
  unfold seSquared at hse
  unfold dfDen
  have t1 : 0 ≤ (varOf g1 / (g1.length : ℝ)) ^ 2 / ((g1.length : ℝ) - 1) :=
    div_nonneg (sq_nonneg _) hn1.le
  have t2 : 0 ≤ (varOf g2 / (g2.length : ℝ)) ^ 2 / ((g2.length : ℝ) - 1) :=
    div_nonneg (sq_nonneg _) hn2.le
  rcases ha.eq_or_gt with ha0 | hapos
  · have hbpos : 0 < varOf g2 / (g2.length : ℝ) := by linarith
    have hterm : 0 < (varOf g2 / (g2.length : ℝ)) ^ 2 / ((g2.length : ℝ) - 1) :=
      div_pos (pow_pos hbpos 2) hn2
    linarith
  · have hterm : 0 < (varOf g1 / (g1.length : ℝ)) ^ 2 / ((g1.length : ℝ) - 1) :=
      div_pos (pow_pos hapos 2) hn1
    linarith

theorem welchDf_fin {g1 g2 : List ℝ} (h1 : 2 ≤ g1.length) (h2 : 2 ≤ g2.length)
    (hse : 0 < seSquared g1 g2) :
    welchDf g1 g2 = fin (seSquared g1 g2 ^ 2 / dfDen g1 g2) ∧
      0 < seSquared g1 g2 ^ 2 / dfDen g1 g2 := by
  have hden := dfDen_pos h1 h2 hse
  exact ⟨by unfold welchDf; exact jdiv_fin_fin _ hden.ne',
    div_pos (pow_pos hse 2) hden⟩

theorem tStat_fin {g1 g2 : List ℝ} (hse : 0 < seSquared g1 g2) :
    tStat g1 g2 =
      fin |(calculateMean g1 - calculateMean g2) / Real.sqrt (seSquared g1 g2)| := by
  unfold tStat
  rw [jsqrt_fin_of_nonneg hse.le,
    jdiv_fin_fin _ (Real.sqrt_ne_zero'.mpr hse)]
  simp

theorem welchDf_nan {g1 g2 : List ℝ} (hse : seSquared g1 g2 = 0) :
    welchDf g1 g2 = nan := by
  unfold welchDf
  rw [dfDen_eq_zero hse, hse]
  have h0 : ((0 : ℝ) ^ 2 : ℝ) = 0 := by norm_num
  rw [h0, jdiv_zero_zero]

theorem pValue_nan {g1 g2 : List ℝ} (hdf : welchDf g1 g2 = nan) :
    pValue g1 g2 = nan ∧ pValueSpec g1 g2 = nan := by
  unfold pValue pValueSpec
  rw [hdf]
  constructor <;> simp

theorem tStat_nan {g1 g2 : List ℝ} (hm : calculateMean g1 = calculateMean g2)
    (hse : seSquared g1 g2 = 0) : tStat g1 g2 = nan := by
  unfold tStat
  rw [hse, hm, sub_self, jsqrt_fin_of_nonneg le_rfl, Real.sqrt_zero,
    jdiv_zero_zero, jabs_nan]

theorem pValue_eval {g1 g2 : List ℝ} {d tv : ℝ} (hdf : welchDf g1 g2 = fin d)
    (ht : tStat g1 g2 = fin tv) (hdpos : 0 < d) :
    pValue g1 g2 = fin (1 / (1 + tv * tv / d) ^ ((d + 1) / 2)) ∧
      pValueSpec g1 g2 = fin ((1 + tv * tv / d) ^ (-((d + 1) / 2))) := by
  have hq : 0 ≤ tv * tv / d := div_nonneg (mul_self_nonneg tv) hdpos.le
  have hbase : (0 : ℝ) < 1 + tv * tv / d := by linarith
  have hexp : (0 : ℝ) < (d + 1) / 2 := div_pos (by linarith) two_pos
  constructor
  · unfold pValue
    rw [ht, hdf, jmul_fin_fin, jdiv_fin_fin _ hdpos.ne',
      jadd_fin_fin, jadd_fin_fin, jdiv_fin_fin _ (two_ne_zero),
      jpow_fin_fin_of_pos hbase hexp.ne',
      jdiv_fin_fin _ (Real.rpow_pos_of_pos hbase _).ne']
  · unfold pValueSpec
    rw [ht, hdf, jmul_fin_fin, jdiv_fin_fin _ hdpos.ne',
      jadd_fin_fin, jadd_fin_fin, jdiv_fin_fin _ (two_ne_zero), jneg_fin,
      jpow_fin_fin_of_pos hbase (neg_ne_zero.mpr hexp.ne')]

theorem pValue_fin {g1 g2 : List ℝ} (h1 : 2 ≤ g1.length) (h2 : 2 ≤ g2.length)
    (hse : 0 < seSquared g1 g2) :
    ∃ d tv : ℝ, 0 < d ∧ 0 ≤ tv ∧ welchDf g1 g2 = fin d ∧ tStat g1 g2 = fin tv ∧
      pValue g1 g2 = fin (1 / (1 + tv * tv / d) ^ ((d + 1) / 2)) ∧
      pValueSpec g1 g2 = fin ((1 + tv * tv / d) ^ (-((d + 1) / 2))) := by
  obtain ⟨hdf, hdpos⟩ := welchDf_fin h1 h2 hse
  obtain ⟨hp, hps⟩ := pValue_eval hdf (tStat_fin hse) hdpos
  exact ⟨_, _, hdpos, abs_nonneg _, hdf, tStat_fin hse, hp, hps⟩

theorem calculateStats_t0_p1 {g1 g2 : List ℝ} (h1 : 2 ≤ g1.length)
    (h2 : 2 ≤ g2.length) (hm : calculateMean g1 = calculateMean g2)
    (hse : 0 < seSquared g1 g2) :
    calculateStats g1 g2 =
      { t := fin 0, p := fin 1,
        m1 := some (calculateMean g1), m2 := some (calculateMean g2) } := by
  have hg : ¬ (g1.length < 2 ∨ g2.length < 2) := by omega
  obtain ⟨hdf, hdpos⟩ := welchDf_fin h1 h2 hse
  have ht : tStat g1 g2 = fin 0 := by
    rw [tStat_fin hse, hm, sub_self, zero_div, abs_zero]
  have hexp : (0 : ℝ) < (seSquared g1 g2 ^ 2 / dfDen g1 g2 + 1) / 2 :=
    div_pos (by linarith) two_pos
  have hp : pValue g1 g2 = fin 1 := by
    unfold pValue
    rw [ht, hdf, jmul_fin_fin, mul_zero, jdiv_fin_fin _ hdpos.ne', zero_div,
      jadd_fin_fin, add_zero, jadd_fin_fin, jdiv_fin_fin _ (two_ne_zero),
      jpow_fin_fin_of_pos one_pos hexp.ne', Real.one_rpow,
      jdiv_fin_fin _ one_ne_zero, div_one]
  unfold calculateStats
  rw [if_neg hg, ht, hp]

/-! ### Concrete sample computations used by witnesses and
counterexamples -/

theorem mean_11 : calculateMean [(1 : ℝ), 1] = 1 := by
  norm_num [calculateMean]

theorem var_11 : varOf [(1 : ℝ), 1] = 0 := by
  norm_num [varOf, calculateVariance, mean_11]

theorem se_11_11 : seSquared [(1 : ℝ), 1] [(1 : ℝ), 1] = 0 := by
  norm_num [seSquared, var_11]

theorem mean_02 : calculateMean [(0 : ℝ), 2] = 1 := by
  norm_num [calculateMean]

theorem var_02 : varOf [(0 : ℝ), 2] = 2 := by
  norm_num [varOf, calculateVariance, mean_02]

theorem mean_13 : calculateMean [(1 : ℝ), 3] = 2 := by
  norm_num [calculateMean]

theorem var_13 : varOf [(1 : ℝ), 3] = 2 := by
  norm_num [varOf, calculateVariance, mean_13]

theorem mean_024 : calculateMean [(0 : ℝ), 2, 4] = 2 := by
  norm_num [calculateMean]

theorem var_024 : varOf [(0 : ℝ), 2, 4] = 4 := by
  norm_num [varOf, calculateVariance, mean_024]

theorem se_024_13 : seSquared [(0 : ℝ), 2, 4] [(1 : ℝ), 3] = 7 / 3 := by
  norm_num [seSquared, var_024, var_13]

theorem dfDen_024_13 : dfDen [(0 : ℝ), 2, 4] [(1 : ℝ), 3] = 17 / 9 := by
  norm_num [dfDen, var_024, var_13]

theorem se_13_13 : seSquared [(1 : ℝ), 3] [(1 : ℝ), 3] = 2 := by
  norm_num [seSquared, var_13]

theorem dfDen_13_13 : dfDen [(1 : ℝ), 3] [(1 : ℝ), 3] = 2 := by
  norm_num [dfDen, var_13]

theorem se_02_13 : seSquared [(0 : ℝ), 2] [(1 : ℝ), 3] = 2 := by
  norm_num [seSquared, var_02, var_13]

theorem se_02_02 : seSquared [(0 : ℝ), 2] [(0 : ℝ), 2] = 2 := by
  norm_num [seSquared, var_02]

/-! ### Symmetry helper lemmas -/

theorem seSquared_comm (g1 g2 : List ℝ) : seSquared g1 g2 = seSquared g2 g1 :=
  add_comm _ _

theorem dfDen_comm (g1 g2 : List ℝ) : dfDen g1 g2 = dfDen g2 g1 :=
  add_comm _ _

theorem jabs_jdiv_neg (x : ℝ) (y : JSNum ℝ) :
    jabs (jdiv (fin (-x)) y) = jabs (jdiv (fin x) y) := by
  cases y with
  | nan => simp
  | inf => rfl
  | ninf => rfl
  | fin b =>
    rcases eq_or_ne b 0 with rfl | hb
    · rcases lt_trichotomy x 0 with hx | rfl | hx
      · rw [jdiv_fin_zero_pos (by linarith : (0 : ℝ) < -x), jdiv_fin_zero_neg hx,
          jabs_inf, jabs_ninf]
      · rw [neg_zero]
      · rw [jdiv_fin_zero_neg (by linarith : -x < (0 : ℝ)), jdiv_fin_zero_pos hx,
          jabs_inf, jabs_ninf]
    · rw [jdiv_fin_fin _ hb, jdiv_fin_fin _ hb, jabs_fin, jabs_fin, neg_div,
        abs_neg]

theorem tStat_comm (g1 g2 : List ℝ) : tStat g1 g2 = tStat g2 g1 := by
  unfold tStat
  rw [seSquared_comm g1 g2]
  have hneg : calculateMean g2 - calculateMean g1 =
      -(calculateMean g1 - calculateMean g2) := by ring
  rw [hneg]
  exact (jabs_jdiv_neg _ _).symm

theorem welchDf_comm (g1 g2 : List ℝ) : welchDf g1 g2 = welchDf g2 g1 := by
  unfold welchDf
  rw [seSquared_comm g1 g2, dfDen_comm g1 g2]

theorem pValue_comm (g1 g2 : List ℝ) : pValue g1 g2 = pValue g2 g1 := by
  unfold pValue
  rw [tStat_comm g1 g2, welchDf_comm g1 g2]

/-! ### Claims about the statistics engine -/

/-- Claim C1: for samples of length at least 2, `calculateStats` computes
the Welch-Satterthwaite degrees of freedom
`df = (v1/n1 + v2/n2)^2 / ((v1/n1)^2/(n1-1) + (v2/n2)^2/(n2-1))`
(`welchDf`) and the statistic `t = |m1 - m2| / sqrt(v1/n1 + v2/n2)`
(`tStat`), and its returned p-value equals
`(1 + t^2/df) ^ (-(df+1)/2)` (`pValueSpec`), the claim's
power-with-negated-exponent form of the source's `1 / pow(...)`. -/
theorem claim_C1_p_value_formula (g1 g2 : List ℝ)
    (h1 : 2 ≤ g1.length) (h2 : 2 ≤ g2.length) :
    (calculateStats g1 g2).t = tStat g1 g2 ∧
      (calculateStats g1 g2).p = pValueSpec g1 g2 := by
  have hg : ¬ (g1.length < 2 ∨ g2.length < 2) := by omega
  have hT : (calculateStats g1 g2).t = tStat g1 g2 := by
    unfold calculateStats
    rw [if_neg hg]
  have hP : (calculateStats g1 g2).p = pValue g1 g2 := by
    unfold calculateStats
    rw [if_neg hg]
  refine ⟨hT, ?_⟩
  rw [hP]
  rcases (seSquared_nonneg g1 g2).eq_or_gt with hse | hse
  · obtain ⟨hp, hps⟩ := pValue_nan (welchDf_nan hse)
    rw [hp, hps]
  · obtain ⟨d, tv, hdpos, htv, hdf, ht, hp, hps⟩ := pValue_fin h1 h2 hse
    rw [hp, hps]
    have hq : 0 ≤ tv * tv / d := div_nonneg (mul_self_nonneg tv) hdpos.le
    have hbase : (0 : ℝ) ≤ 1 + tv * tv / d := by linarith
    rw [Real.rpow_neg hbase, one_div]

/-- Witness for C1 at the concrete pair `([0, 2], [1, 3])`. -/
theorem claim_C1_p_value_formula_witness :
    2 ≤ ([(0 : ℝ), 2]).length ∧ 2 ≤ ([(1 : ℝ), 3]).length ∧
      ((calculateStats [(0 : ℝ), 2] [(1 : ℝ), 3]).t = tStat [(0 : ℝ), 2] [(1 : ℝ), 3] ∧
        (calculateStats [(0 : ℝ), 2] [(1 : ℝ), 3]).p =
          pValueSpec [(0 : ℝ), 2] [(1 : ℝ), 3]) :=
  ⟨by norm_num, by norm_num,
    claim_C1_p_value_formula _ _ (by norm_num) (by norm_num)⟩

/-- Claim C2 counterexample: two pairs of samples on which
`calculateStats` returns identical structures although their
Welch-Satterthwaite degrees of freedom differ (49/17 versus 2) — so the
returned structure determines no `degrees_of_freedom` field. -/
theorem claim_C2_df_field_counterexample :
    calculateStats [(0 : ℝ), 2, 4] [(1 : ℝ), 3] =
        calculateStats [(1 : ℝ), 3] [(1 : ℝ), 3] ∧
      welchDf [(0 : ℝ), 2, 4] [(1 : ℝ), 3] ≠ welchDf [(1 : ℝ), 3] [(1 : ℝ), 3] := by
  have h1 : 2 ≤ ([(0 : ℝ), 2, 4]).length := by norm_num
  have h2 : 2 ≤ ([(1 : ℝ), 3]).length := by norm_num
  have hm : calculateMean [(0 : ℝ), 2, 4] = calculateMean [(1 : ℝ), 3] := by
    rw [mean_024, mean_13]
  have hse : 0 < seSquared [(0 : ℝ), 2, 4] [(1 : ℝ), 3] := by
    rw [se_024_13]
    norm_num
  have hse' : 0 < seSquared [(1 : ℝ), 3] [(1 : ℝ), 3] := by
    rw [se_13_13]
    norm_num
  constructor
  · rw [calculateStats_t0_p1 h1 h2 hm hse, calculateStats_t0_p1 h2 h2 rfl hse',
      mean_024, mean_13]
  · rw [(welchDf_fin h1 h2 hse).1, (welchDf_fin h2 h2 hse').1,
      se_024_13, dfDen_024_13, se_13_13, dfDen_13_13]
    intro hEq
    rw [JSNum.fin.injEq] at hEq
    norm_num at hEq

/-- Claim C2 amended: for samples of length at least 2 the structure
returned by `calculateStats` exposes exactly the fields
`t` (t-statistic), `p` (p-value), `m1` and `m2` (group means); the Welch
degrees of freedom are computed internally but not returned. -/
theorem claim_C2_result_fields (g1 g2 : List ℝ)
    (h1 : 2 ≤ g1.length) (h2 : 2 ≤ g2.length) :
    calculateStats g1 g2 =
      { t := tStat g1 g2, p := pValue g1 g2,
        m1 := some (calculateMean g1), m2 := some (calculateMean g2) } := by
  have hg : ¬ (g1.length < 2 ∨ g2.length < 2) := by omega
  unfold calculateStats
  rw [if_neg hg]

/-- Witness for the amended C2 at the concrete pair `([0, 2], [1, 3])`. -/
theorem claim_C2_result_fields_witness :
    2 ≤ ([(0 : ℝ), 2]).length ∧ 2 ≤ ([(1 : ℝ), 3]).length ∧
      calculateStats [(0 : ℝ), 2] [(1 : ℝ), 3] =
        { t := tStat [(0 : ℝ), 2] [(1 : ℝ), 3],
          p := pValue [(0 : ℝ), 2] [(1 : ℝ), 3],
          m1 := some (calculateMean [(0 : ℝ), 2]),
          m2 := some (calculateMean [(1 : ℝ), 3]) } :=
  ⟨by norm_num, by norm_num, claim_C2_result_fields _ _ (by norm_num) (by norm_num)⟩

/-- Claim C3: when either sample has fewer than 2 elements,
`calculateStats` returns (it does not throw — it is a total function) the
degenerate structure with `p = 1` and `t = 0` (and no means). -/
theorem claim_C3_degenerate_result (g1 g2 : List ℝ)
    (h : g1.length < 2 ∨ g2.length < 2) :
    calculateStats g1 g2 =
      { t := fin 0, p := fin 1, m1 := none, m2 := none } := by
  unfold calculateStats
  rw [if_pos h]

/-- Witness for C3 at the concrete pair `([5], [1, 2])`. -/
theorem claim_C3_degenerate_result_witness :
    (([(5 : ℝ)]).length < 2 ∨ ([(1 : ℝ), 2]).length < 2) ∧
      calculateStats [(5 : ℝ)] [(1 : ℝ), 2] =
        { t := fin 0, p := fin 1, m1 := none, m2 := none } :=
  ⟨by norm_num, claim_C3_degenerate_result _ _ (by norm_num)⟩

/-- Claim C4 counterexample: on the pair `([1, 1], [1, 1])` (both samples
of length 2) both variances are 0, all divisors vanish, and the computed
degrees of freedom, t-statistic and p-value are all `NaN` — so none of
`t ≥ 0`, `df > 0`, `p ∈ (0, 1]` holds there. -/
theorem claim_C4_ranges_counterexample :
    ¬ ((∃ tv : ℝ, (calculateStats [(1 : ℝ), 1] [(1 : ℝ), 1]).t = fin tv ∧ 0 ≤ tv) ∧
       (∃ d : ℝ, welchDf [(1 : ℝ), 1] [(1 : ℝ), 1] = fin d ∧ 0 < d) ∧
       (∃ pv : ℝ, (calculateStats [(1 : ℝ), 1] [(1 : ℝ), 1]).p = fin pv ∧
         0 < pv ∧ pv ≤ 1)) := by
  rintro ⟨-, ⟨d, hd, -⟩, -⟩
  rw [welchDf_nan se_11_11] at hd
  exact JSNum.noConfusion hd

/-- Claim C4 amended: for samples of length at least 2 whose variances
are not both zero (`0 < v1/n1 + v2/n2`), the t-statistic is a finite
nonnegative real, the Welch degrees of freedom is a finite positive real,
and the p-value is a finite real in `(0, 1]`. -/
theorem claim_C4_ranges (g1 g2 : List ℝ) (h1 : 2 ≤ g1.length)
    (h2 : 2 ≤ g2.length) (hse : 0 < seSquared g1 g2) :
    (∃ tv : ℝ, (calculateStats g1 g2).t = fin tv ∧ 0 ≤ tv) ∧
    (∃ d : ℝ, welchDf g1 g2 = fin d ∧ 0 < d) ∧
    (∃ pv : ℝ, (calculateStats g1 g2).p = fin pv ∧ 0 < pv ∧ pv ≤ 1) := by
  have hg : ¬ (g1.length < 2 ∨ g2.length < 2) := by omega
  have hT : (calculateStats g1 g2).t = tStat g1 g2 := by
    unfold calculateStats
    rw [if_neg hg]
  have hP : (calculateStats g1 g2).p = pValue g1 g2 := by
    unfold calculateStats
    rw [if_neg hg]
  obtain ⟨d, tv, hdpos, htv, hdf, ht, hp, hps⟩ := pValue_fin h1 h2 hse
  refine ⟨⟨tv, by rw [hT, ht], htv⟩, ⟨d, hdf, hdpos⟩, ?_⟩
  have hq : 0 ≤ tv * tv / d := div_nonneg (mul_self_nonneg tv) hdpos.le
  have hbase : (1 : ℝ) ≤ 1 + tv * tv / d := by linarith
  have hexp : (0 : ℝ) ≤ (d + 1) / 2 := (div_pos (by linarith) two_pos).le
  have hX : (1 : ℝ) ≤ (1 + tv * tv / d) ^ ((d + 1) / 2) :=
    Real.one_le_rpow hbase hexp
  refine ⟨1 / (1 + tv * tv / d) ^ ((d + 1) / 2), by rw [hP, hp], ?_, ?_⟩
  · exact div_pos one_pos (lt_of_lt_of_le one_pos hX)
  · rw [div_le_one (lt_of_lt_of_le one_pos hX)]
    exact hX

/-- Witness for the amended C4 at the concrete pair `([0, 2], [1, 3])`
(where `v1/n1 + v2/n2 = 2`). -/
theorem claim_C4_ranges_witness :
    2 ≤ ([(0 : ℝ), 2]).length ∧ 2 ≤ ([(1 : ℝ), 3]).length ∧
      0 < seSquared [(0 : ℝ), 2] [(1 : ℝ), 3] ∧
      ((∃ tv : ℝ, (calculateStats [(0 : ℝ), 2] [(1 : ℝ), 3]).t = fin tv ∧ 0 ≤ tv) ∧
       (∃ d : ℝ, welchDf [(0 : ℝ), 2] [(1 : ℝ), 3] = fin d ∧ 0 < d) ∧
       (∃ pv : ℝ, (calculateStats [(0 : ℝ), 2] [(1 : ℝ), 3]).p = fin pv ∧
         0 < pv ∧ pv ≤ 1)) :=
  ⟨by norm_num, by norm_num, by rw [se_02_13]; norm_num,
    claim_C4_ranges _ _ (by norm_num) (by norm_num) (by rw [se_02_13]; norm_num)⟩

/-- Claim C5 counterexample: on the constant sample `s = [1, 1]` (length
2), `calculateStats s s` yields `t = NaN` and `p = NaN` (zero variance
makes every divisor zero), not `t = 0` and `p = 1`. -/
theorem claim_C5_identical_counterexample :
    (calculateStats [(1 : ℝ), 1] [(1 : ℝ), 1]).t = nan ∧
    (calculateStats [(1 : ℝ), 1] [(1 : ℝ), 1]).p = nan ∧
    ¬ ((calculateStats [(1 : ℝ), 1] [(1 : ℝ), 1]).t = fin 0 ∧
       (calculateStats [(1 : ℝ), 1] [(1 : ℝ), 1]).p = fin 1) := by
  have hg : ¬ (([(1 : ℝ), 1]).length < 2 ∨ ([(1 : ℝ), 1]).length < 2) := by
    norm_num
  have hT : (calculateStats [(1 : ℝ), 1] [(1 : ℝ), 1]).t =
      tStat [(1 : ℝ), 1] [(1 : ℝ), 1] := by
    unfold calculateStats
    rw [if_neg hg]
  have hP : (calculateStats [(1 : ℝ), 1] [(1 : ℝ), 1]).p =
      pValue [(1 : ℝ), 1] [(1 : ℝ), 1] := by
    unfold calculateStats
    rw [if_neg hg]
  have ht := tStat_nan rfl se_11_11
  obtain ⟨hp, -⟩ := pValue_nan (welchDf_nan se_11_11)
  refine ⟨by rw [hT, ht], by rw [hP, hp], ?_⟩
  rintro ⟨hc, -⟩
  rw [hT, ht] at hc
  exact JSNum.noConfusion hc

/-- Claim C5 amended: for a sample `s` of length at least 2 with nonzero
variance, `calculateStats s s` yields `t = 0` and `p = 1`. -/
theorem claim_C5_identical_sample (s : List ℝ) (h : 2 ≤ s.length)
    (hv : varOf s ≠ 0) :
    (calculateStats s s).t = fin 0 ∧ (calculateStats s s).p = fin 1 := by
  have hvpos : 0 < varOf s := (varOf_nonneg s).lt_of_ne (Ne.symm hv)
  have hn : (0 : ℝ) < (s.length : ℝ) := by
    have hl : 0 < s.length := by omega
    exact_mod_cast hl
  have hse : 0 < seSquared s s := by
    unfold seSquared
    have hterm : 0 < varOf s / (s.length : ℝ) := div_pos hvpos hn
    linarith
  have hEq := calculateStats_t0_p1 h h rfl hse
  exact ⟨by rw [hEq], by rw [hEq]⟩

/-- Witness for the amended C5 at the concrete sample `[0, 2]` (variance
2). -/
theorem claim_C5_identical_sample_witness :
    2 ≤ ([(0 : ℝ), 2]).length ∧ varOf [(0 : ℝ), 2] ≠ 0 ∧
      ((calculateStats [(0 : ℝ), 2] [(0 : ℝ), 2]).t = fin 0 ∧
        (calculateStats [(0 : ℝ), 2] [(0 : ℝ), 2]).p = fin 1) :=
  ⟨by norm_num, by rw [var_02]; norm_num,
    claim_C5_identical_sample _ (by norm_num) (by rw [var_02]; norm_num)⟩

/-- Claim C6: swapping the two samples leaves both the t-statistic and
the p-value of `calculateStats` unchanged (on all inputs, including the
degenerate guard). -/
theorem claim_C6_symmetric (g1 g2 : List ℝ) :
    (calculateStats g1 g2).t = (calculateStats g2 g1).t ∧
      (calculateStats g1 g2).p = (calculateStats g2 g1).p := by
  by_cases hg : g1.length < 2 ∨ g2.length < 2
  · have hg' : g2.length < 2 ∨ g1.length < 2 := hg.symm
    unfold calculateStats
    rw [if_pos hg, if_pos hg']
    exact ⟨rfl, rfl⟩
  · have hg' : ¬ (g2.length < 2 ∨ g1.length < 2) := fun h => hg h.symm
    unfold calculateStats
    rw [if_neg hg, if_neg hg']
    exact ⟨tStat_comm g1 g2, pValue_comm g1 g2⟩

/-! ### Quartile summary lemmas -/

section Quartile

variable {α : Type} [LinearOrderedField α] [FloorRing α]

omit [FloorRing α] in
theorem sorted_getD_mono {s : List α} (hs : s.Sorted (· ≤ ·)) {i j : ℕ}
    (hij : i ≤ j) (hj : j < s.length) : s.getD i 0 ≤ s.getD j 0 := by
  have hi : i < s.length := lt_of_le_of_lt hij hj
  rw [List.getD_eq_getElem s 0 hi, List.getD_eq_getElem s 0 hj]
  have h := hs.rel_get_of_le (show (⟨i, hi⟩ : Fin s.length) ≤ ⟨j, hj⟩ from hij)
  simpa using h

theorem getValue_interp {s : List α} {pos : α}
    (h : ⌊pos⌋.toNat + 1 < s.length) :
    getValue s pos = s.getD (⌊pos⌋.toNat) 0 +
      (pos - ((⌊pos⌋.toNat : ℕ) : α)) *
        (s.getD (⌊pos⌋.toNat + 1) 0 - s.getD (⌊pos⌋.toNat) 0) := by
  rw [getValue, List.get?_eq_get h, List.getD_eq_getElem s 0 h]
  rfl

theorem getValue_fallback {s : List α} {pos : α}
    (h : s.length ≤ ⌊pos⌋.toNat + 1) :
    getValue s pos = s.getD (⌊pos⌋.toNat) 0 := by
  rw [getValue, List.get?_eq_none.mpr h]

theorem getValue_lower {s : List α} (hs : s.Sorted (· ≤ ·)) {pos : α}
    (h0 : 0 ≤ pos) :
    s.getD (⌊pos⌋.toNat) 0 ≤ getValue s pos := by
  by_cases h : ⌊pos⌋.toNat + 1 < s.length
  · rw [getValue_interp h]
    have hr : 0 ≤ pos - ((⌊pos⌋.toNat : ℕ) : α) := by
      rw [Int.floor_toNat]
      have := Nat.floor_le h0
      linarith
    have hΔ : 0 ≤ s.getD (⌊pos⌋.toNat + 1) 0 - s.getD (⌊pos⌋.toNat) 0 :=
      sub_nonneg.mpr (sorted_getD_mono hs (Nat.le_succ _) h)
    have hm := mul_nonneg hr hΔ
    linarith
  · rw [getValue_fallback (not_lt.mp h)]

theorem getValue_upper {s : List α} (hs : s.Sorted (· ≤ ·)) {pos : α}
    (h : ⌊pos⌋.toNat + 1 < s.length) :
    getValue s pos ≤ s.getD (⌊pos⌋.toNat + 1) 0 := by
  rw [getValue_interp h]
  have hr : pos - ((⌊pos⌋.toNat : ℕ) : α) ≤ 1 := by
    rw [Int.floor_toNat]
    have := Nat.lt_floor_add_one pos
    linarith
  have hΔ : 0 ≤ s.getD (⌊pos⌋.toNat + 1) 0 - s.getD (⌊pos⌋.toNat) 0 :=
    sub_nonneg.mpr (sorted_getD_mono hs (Nat.le_succ _) h)
  have hm := mul_le_mul_of_nonneg_right hr hΔ
  have hone := one_mul (s.getD (⌊pos⌋.toNat + 1) 0 - s.getD (⌊pos⌋.toNat) 0)
  linarith

theorem getValue_mono {s : List α} (hs : s.Sorted (· ≤ ·)) {pos pos' : α}
    (h0 : 0 ≤ pos) (hpp : pos ≤ pos') (hub : pos' ≤ (s.length : α) - 1) :
    getValue s pos ≤ getValue s pos' := by
  have h0' : 0 ≤ pos' := le_trans h0 hpp
  have hn_pos : 1 ≤ s.length := by
    by_contra hcon
    have hlen : s.length = 0 := by omega
    rw [hlen] at hub
    norm_num at hub
    linarith
  have hub' : pos' ≤ ((s.length - 1 : ℕ) : α) := by
    rwa [Nat.cast_sub hn_pos, Nat.cast_one]
  have hb'_le : ⌊pos'⌋.toNat ≤ s.length - 1 := by
    rw [Int.floor_toNat]
    calc ⌊pos'⌋₊ ≤ ⌊((s.length - 1 : ℕ) : α)⌋₊ := Nat.floor_mono hub'
      _ = s.length - 1 := Nat.floor_natCast _
  have hb'_lt : ⌊pos'⌋.toNat < s.length := by omega
  have hbb : ⌊pos⌋.toNat ≤ ⌊pos'⌋.toNat := by
    rw [Int.floor_toNat, Int.floor_toNat]
    exact Nat.floor_mono hpp
  rcases eq_or_lt_of_le hbb with heq | hlt
  · by_cases h : ⌊pos⌋.toNat + 1 < s.length
    · have h' : ⌊pos'⌋.toNat + 1 < s.length := by omega
      rw [getValue_interp h, getValue_interp h', ← heq]
      have hΔ : 0 ≤ s.getD (⌊pos⌋.toNat + 1) 0 - s.getD (⌊pos⌋.toNat) 0 :=
        sub_nonneg.mpr (sorted_getD_mono hs (Nat.le_succ _) h)
      have hrr : pos - ((⌊pos⌋.toNat : ℕ) : α) ≤ pos' - ((⌊pos⌋.toNat : ℕ) : α) := by
        linarith
      have hm := mul_le_mul_of_nonneg_right hrr hΔ
      linarith
    · have h' : ¬ (⌊pos'⌋.toNat + 1 < s.length) := by omega
      rw [getValue_fallback (not_lt.mp h), getValue_fallback (not_lt.mp h'), heq]
  · have hstep : ⌊pos⌋.toNat + 1 ≤ ⌊pos'⌋.toNat := hlt
    have h1 : ⌊pos⌋.toNat + 1 < s.length := lt_of_le_of_lt hstep hb'_lt
    calc getValue s pos ≤ s.getD (⌊pos⌋.toNat + 1) 0 := getValue_upper hs h1
      _ ≤ s.getD (⌊pos'⌋.toNat) 0 := sorted_getD_mono hs hstep hb'_lt
      _ ≤ getValue s pos' := getValue_lower hs h0'

theorem getValue_zero {s : List α} : getValue s 0 = s.getD 0 0 := by
  have hb : (⌊(0 : α)⌋).toNat = 0 := by
    rw [Int.floor_zero]
    rfl
  rcases hget : s.get? ((⌊(0 : α)⌋).toNat + 1) with _ | v
  · rw [getValue, hget, hb]
  · rw [getValue, hget, hb]
    push_cast
    ring

theorem getValue_last {s : List α} (h : 1 ≤ s.length) :
    getValue s ((s.length : α) - 1) = s.getD (s.length - 1) 0 := by
  have hcast : ((s.length : α) - 1) = ((s.length - 1 : ℕ) : α) := by
    rw [Nat.cast_sub h, Nat.cast_one]
  have hb : (⌊(s.length : α) - 1⌋).toNat = s.length - 1 := by
    rw [Int.floor_toNat, hcast, Nat.floor_natCast]
  have hnone : s.get? ((⌊(s.length : α) - 1⌋).toNat + 1) = none := by
    rw [hb, Nat.sub_add_cancel h]
    exact List.get?_eq_none.mpr le_rfl
  rw [getValue, hnone, hb]

end Quartile

/-! ### Claims about the quartile summary -/

/-- Claim C7: for a non-empty sample the five-number summary of
`getQuartiles` is ordered: `min ≤ q1 ≤ median ≤ q3 ≤ max`. -/
theorem claim_C7_quartile_order {α : Type} [LinearOrderedField α] [FloorRing α]
    (data : List α) (h : data ≠ []) :
    (getQuartiles data).min ≤ (getQuartiles data).q1 ∧
    (getQuartiles data).q1 ≤ (getQuartiles data).median ∧
    (getQuartiles data).median ≤ (getQuartiles data).q3 ∧
    (getQuartiles data).q3 ≤ (getQuartiles data).max := by
  have hlen : ¬ (data.length = 0) := fun h0 => h (List.length_eq_zero.mp h0)
  have hs : (sortedCopy data).Sorted (· ≤ ·) :=
    List.sorted_insertionSort _ _
  have hslen : (sortedCopy data).length = data.length :=
    (List.perm_insertionSort _ _).length_eq
  have hq : getQuartiles data =
      { min := (sortedCopy data).getD 0 0,
        q1 := getValue (sortedCopy data) ((((sortedCopy data).length : α) - 1) * (1 / 4)),
        median := getValue (sortedCopy data) ((((sortedCopy data).length : α) - 1) * (1 / 2)),
        q3 := getValue (sortedCopy data) ((((sortedCopy data).length : α) - 1) * (3 / 4)),
        max := (sortedCopy data).getD ((sortedCopy data).length - 1) 0 } := by
    unfold getQuartiles
    rw [if_neg hlen]
  have hn : 1 ≤ (sortedCopy data).length := by
    rw [hslen]
    omega
  have hn1 : (0 : α) ≤ ((sortedCopy data).length : α) - 1 := by
    have hc : (1 : α) ≤ ((sortedCopy data).length : α) := by exact_mod_cast hn
    linarith
  have p0 : (0 : α) ≤ (((sortedCopy data).length : α) - 1) * (1 / 4) :=
    mul_nonneg hn1 (by norm_num)
  have p14 : (((sortedCopy data).length : α) - 1) * (1 / 4) ≤
      (((sortedCopy data).length : α) - 1) * (1 / 2) :=
    mul_le_mul_of_nonneg_left (by norm_num) hn1
  have p24 : (((sortedCopy data).length : α) - 1) * (1 / 2) ≤
      (((sortedCopy data).length : α) - 1) * (3 / 4) :=
    mul_le_mul_of_nonneg_left (by norm_num) hn1
  have p34 : (((sortedCopy data).length : α) - 1) * (3 / 4) ≤
      ((sortedCopy data).length : α) - 1 := by
    have hm := mul_le_mul_of_nonneg_left (by norm_num : (3 / 4 : α) ≤ 1) hn1
    calc (((sortedCopy data).length : α) - 1) * (3 / 4) ≤
        (((sortedCopy data).length : α) - 1) * 1 := hm
      _ = ((sortedCopy data).length : α) - 1 := mul_one _
  rw [hq]
  refine ⟨?_, ?_, ?_, ?_⟩
  · rw [show (sortedCopy data).getD 0 0 = getValue (sortedCopy data) 0 from
      getValue_zero.symm]
    exact getValue_mono hs le_rfl p0 (le_trans (le_trans p14 p24) p34)
  · exact getValue_mono hs p0 p14 (le_trans p24 p34)
  · exact getValue_mono hs (le_trans p0 p14) p24 p34
  · rw [show (sortedCopy data).getD ((sortedCopy data).length - 1) 0 =
        getValue (sortedCopy data) (((sortedCopy data).length : α) - 1) from
      (getValue_last hn).symm]
    exact getValue_mono hs (le_trans (le_trans p0 p14) p24) p34 le_rfl

/-- Witness for C7 at the concrete sample `[1, 2, 3, 4]` over `ℚ` (whose
summary is `1, 7/4, 5/2, 13/4, 4`). -/
theorem claim_C7_quartile_order_witness :
    (([1, 2, 3, 4] : List ℚ) ≠ []) ∧
      ((getQuartiles ([1, 2, 3, 4] : List ℚ)).min ≤
          (getQuartiles ([1, 2, 3, 4] : List ℚ)).q1 ∧
        (getQuartiles ([1, 2, 3, 4] : List ℚ)).q1 ≤
          (getQuartiles ([1, 2, 3, 4] : List ℚ)).median ∧
        (getQuartiles ([1, 2, 3, 4] : List ℚ)).median ≤
          (getQuartiles ([1, 2, 3, 4] : List ℚ)).q3 ∧
        (getQuartiles ([1, 2, 3, 4] : List ℚ)).q3 ≤
          (getQuartiles ([1, 2, 3, 4] : List ℚ)).max) :=
  ⟨by decide, claim_C7_quartile_order ([1, 2, 3, 4] : List ℚ) (by decide)⟩

/-- Claim C10: a call to `getQuartiles` leaves the caller's array
unchanged — the in-place sort is applied to the spread copy, which is a
sorted permutation of the input, while the caller's array after the call
is exactly the input. -/
theorem claim_C10_input_unchanged {α : Type} [LinearOrderedField α]
    [FloorRing α] (data : List α) :
    (getQuartilesCall data).2 = data ∧ (sortedCopy data).Perm data ∧
      (sortedCopy data).Sorted (· ≤ ·) :=
  ⟨rfl, List.perm_insertionSort _ _, List.sorted_insertionSort _ _⟩

/-! ### Record extractor lemmas -/

theorem parseVal_ne_some_nan (v : List Char) : parseVal v ≠ some JSNum.nan := by
  unfold parseVal
  rcases parseFloat v with _ | _ | _ | q <;> simp

theorem fieldAt_ne_some_nan (row : List (List Char)) (i : ℕ) :
    fieldAt row i ≠ some JSNum.nan := by
  unfold fieldAt
  cases hg : row.get? i with
  | none => simp
  | some v => exact parseVal_ne_some_nan v

theorem MOk_addData {md : MetricData} {row : List (List Char)} {i j : ℕ}
    (h : MOk md) : MOk (addData md row i j) := by
  refine ⟨fun hmem => ?_, fun hmem => ?_⟩
  · simp only [addData, List.mem_append, Option.mem_toList, Option.mem_def]
      at hmem
    rcases hmem with hm | hnew
    · exact h.1 hm
    · exact fieldAt_ne_some_nan row i hnew
  · simp only [addData, List.mem_append, Option.mem_toList, Option.mem_def]
      at hmem
    rcases hmem with hm | hnew
    · exact h.2 hm
    · exact fieldAt_ne_some_nan row j hnew

theorem POk_processLine {pd : ParsedData} (line : List Char) (h : POk pd) :
    POk (processLine pd line) := by
  unfold processLine
  by_cases hlen : (splitChar ',' line).length < 10
  · rw [if_pos hlen]
    exact h
  · rw [if_neg hlen]
    exact ⟨MOk_addData h.1, MOk_addData h.2.1, MOk_addData h.2.2.1,
      MOk_addData h.2.2.2.1, MOk_addData h.2.2.2.2⟩

theorem POk_foldl (lines : List (List Char)) (pd : ParsedData) (h : POk pd) :
    POk (lines.foldl processLine pd) := by
  induction lines generalizing pd with
  | nil => exact h
  | cons l ls ih => exact ih _ (POk_processLine l h)

theorem POk_parseCSV (text : List Char) : POk (parseCSV text) := by
  apply POk_foldl
  simp [POk, MOk, initialData]

/-! ### Claims about the record extractor -/

/-- Claim C8: a data row with at least 10 comma-separated fields updates
every metric: each of the ten columns is parsed independently, a field
that fails to parse (such as the empty string, for which
`parseVal "" = none`) simply appends nothing to its own sample, and all
other columns are still accumulated. -/
theorem claim_C8_independent_columns (pd : ParsedData) (line : List Char)
    (h : 10 ≤ (splitChar ',' line).length) :
    processLine pd line = rowUpdate pd (splitChar ',' line) ∧
      parseVal ([] : List Char) = none := by
  constructor
  · unfold processLine
    rw [if_neg (by omega : ¬ (splitChar ',' line).length < 10)]
    rfl
  · rfl

/-- Witness for C8: the spec's demo row (12 fields, among them an empty
column 9), starting from the empty accumulator. -/
theorem claim_C8_independent_columns_witness :
    10 ≤ (splitChar ',' ((",42,43,9,8,46,44,41,41,,4.309,4.433").toList)).length ∧
      (processLine initialData ((",42,43,9,8,46,44,41,41,,4.309,4.433").toList) =
          rowUpdate initialData
            (splitChar ',' ((",42,43,9,8,46,44,41,41,,4.309,4.433").toList)) ∧
        parseVal ([] : List Char) = none) :=
  ⟨by decide, claim_C8_independent_columns initialData _ (by decide)⟩

/-- Claim C9 counterexample: on a CSV text whose data row carries the
literal `Infinity` in the Ball Size group-A column, the extractor
accumulates `+Infinity` — a non-finite element (`parseFloat` accepts the
`Infinity` literal and `isNaN` does not reject it). -/
theorem claim_C9_finite_counterexample :
    (parseCSV infinityText).ballSize.group1 = [JSNum.inf] ∧
      JSNum.isFinite (JSNum.inf : JSNum ℚ) = false := by
  exact ⟨by decide, rfl⟩

/-- Claim C9 amended: every element of every sample the extractor
produces is non-`NaN` (though it may be an infinity: `parseVal` filters
exactly the `NaN` results of `parseFloat`). -/
theorem claim_C9_no_nan (text : List Char) (x : JSNum ℚ)
    (hx : x ∈ allValues (parseCSV text)) : x ≠ JSNum.nan := by
  rintro rfl
  have h := POk_parseCSV text
  unfold allValues at hx
  simp only [List.mem_append] at hx
  rcases hx with ((((((((h1 | h2) | h3) | h4) | h5) | h6) | h7) | h8) | h9) | h10
  · exact h.1.1 h1
  · exact h.1.2 h2
  · exact h.2.1.1 h3
  · exact h.2.1.2 h4
  · exact h.2.2.1.1 h5
  · exact h.2.2.1.2 h6
  · exact h.2.2.2.1.1 h7
  · exact h.2.2.2.1.2 h8
  · exact h.2.2.2.2.1 h9
  · exact h.2.2.2.2.2 h10

/-- Witness for the amended C9: the `+Infinity` element extracted from
`infinityText` is indeed not `NaN`. -/
theorem claim_C9_no_nan_witness :
    (JSNum.inf : JSNum ℚ) ∈ allValues (parseCSV infinityText) ∧
      (JSNum.inf : JSNum ℚ) ≠ JSNum.nan := by
  have h1 : (parseCSV infinityText).ballSize.group1 = [JSNum.inf] := by
    decide
  have hmem : (JSNum.inf : JSNum ℚ) ∈ allValues (parseCSV infinityText) := by
    rw [allValues, h1]
    simp
  exact ⟨hmem, claim_C9_no_nan infinityText _ hmem⟩

end QA
